import Mathlib

/-!
Verification development for the KamiSetup backend (`backend_functions.py`).

The Python source is shallowly embedded below:
pure string manipulation becomes Lean functions on `String`/`List Char`,
the settings file becomes an explicit `Option String` state (`none` = the
file does not exist), the worker thread's observable behaviour becomes a
trace of emitted events, and fallible operations return `Except`/`Option`.
-/

namespace KamiSetup

/-! ## Python string primitives -/

/-- The whitespace set of Python `str.strip()`: the characters for which
`str.isspace()` holds — ASCII whitespace U+0009-U+000D and U+0020, the
separators U+001C-U+001F, NEL U+0085, NBSP U+00A0, and the Unicode space
separators (Zs) plus the line/paragraph separators U+2028/U+2029. -/
def isPyWs (c : Char) : Bool :=
  c = ' ' || c = '\t' || c = '\n' || c = '\r' || c = '\x0b' || c = '\x0c' ||
    c = '\x1c' || c = '\x1d' || c = '\x1e' || c = '\x1f' || c = '\x85' ||
    c = '\xa0' || c = '\u1680' || c = '\u2000' || c = '\u2001' ||
    c = '\u2002' || c = '\u2003' || c = '\u2004' || c = '\u2005' ||
    c = '\u2006' || c = '\u2007' || c = '\u2008' || c = '\u2009' ||
    c = '\u200a' || c = '\u2028' || c = '\u2029' || c = '\u202f' ||
    c = '\u205f' || c = '\u3000'

def stripLeft (l : List Char) : List Char := l.dropWhile isPyWs

def stripRight (l : List Char) : List Char := (stripLeft l.reverse).reverse

/-- Python `str.strip()` on a character list. -/
def pyStripList (l : List Char) : List Char := stripLeft (stripRight l)

/-- Python `str.strip()`. -/
def pyStrip (s : String) : String := ⟨pyStripList s.data⟩

/-- Python file-object `readline()`: the first line (with its trailing
newline, when present) and the remaining contents. -/
def readlineList (l : List Char) : List Char × List Char :=
  match l.dropWhile (fun c => c != '\n') with
  | [] => (l.takeWhile (fun c => c != '\n'), [])
  | c :: r => (l.takeWhile (fun c => c != '\n') ++ [c], r)

/-- The universal-newlines translation Python applies when reading a file
in text mode: "\r\n" and a lone "\r" are both read as "\n". -/
def universalNewlines : List Char → List Char
  | [] => []
  | [c] => if c = '\r' then ['\n'] else [c]
  | c :: d :: rest =>
    if c = '\r' then
      if d = '\n' then '\n' :: universalNewlines rest
      else '\n' :: universalNewlines (d :: rest)
    else c :: universalNewlines (d :: rest)

/-! ## Selection store (`save_selected_env` / `load_selected_env`)

`SETTINGS_FILE` is a single shared file; its state is modelled as
`Option String` (`none` when the file does not exist). -/

def SETTINGS_FILE : String := "settings.json"

/-- `save_selected_env` (backend_functions.py:147-150): the content written
to `SETTINGS_FILE` is the type, a newline, and the name. -/
def save_selected_env (env_type env_name : String) : String :=
  env_type ++ "\n" ++ env_name

/-- The sequence of file states observable while `save_selected_env` runs:
the prior state, the truncated state produced by `open(SETTINGS_FILE, "w")`,
and the final written state. -/
def save_selected_env_states (prior : Option String) (env_type env_name : String) :
    List (Option String) :=
  [prior, some "", some (save_selected_env env_type env_name)]

/-- `load_selected_env` (backend_functions.py:153-161): reads the file in
text mode (universal newlines), takes two lines and strips them; a missing
file (`FileNotFoundError`) yields `(none, none)`. -/
def load_selected_env (file : Option String) : Option String × Option String :=
  match file with
  | none => (none, none)
  | some content =>
    let translated := universalNewlines content.data
    let p1 := readlineList translated
    let p2 := readlineList p1.2
    (some ⟨pyStripList p1.1⟩, some ⟨pyStripList p2.1⟩)

/-! ## Settings store (`save_setting` / `load_settings`)

`save_setting` and `load_settings` use the same `SETTINGS_FILE` as the
selection store above.  `load_settings` is Python's `json.load`; the JSON
grammar is modelled by a fuel-based recursive-descent parser (numbers are
modelled as integers and `\uXXXX` escapes are not modelled; neither shape
is ever written by this program). -/

/-- Insert into a Python dict modelled as an association list: an existing
key is updated in place, a new key is appended. -/
def dictSet {α : Type} : List (String × α) → String → α → List (String × α)
  | [], k, v => [(k, v)]
  | (k', v') :: rest, k, v =>
    if k' = k then (k, v) :: rest else (k', v') :: dictSet rest k v

def dictGet? {α : Type} : List (String × α) → String → Option α
  | [], _ => none
  | (k', v') :: rest, k => if k' = k then some v' else dictGet? rest k

inductive Jval
  | jnull
  | jbool (b : Bool)
  | jnum (n : Int)
  | jstr (s : String)
  | jarr (elems : List Jval)
  | jobj (members : List (String × Jval))

/-- The whitespace accepted between JSON tokens. -/
def jsonWs (c : Char) : Bool := c = ' ' || c = '\t' || c = '\n' || c = '\r'

def skipJsonWs (l : List Char) : List Char := l.dropWhile jsonWs

def isJsonDigit (c : Char) : Bool := '0'.toNat ≤ c.toNat && c.toNat ≤ '9'.toNat

/-- Body of a JSON string after the opening quote, with the common escapes. -/
def parseStringBody : Nat → List Char → Except Unit (List Char × List Char)
  | 0, _ => .error ()
  | _ + 1, [] => .error ()
  | fuel + 1, c :: rest =>
    if c = '"' then .ok ([], rest)
    else if c = '\\' then
      match rest with
      | [] => .error ()
      | e :: rest2 =>
        let esc : Except Unit Char :=
          if e = '"' then .ok '"'
          else if e = '\\' then .ok '\\'
          else if e = '/' then .ok '/'
          else if e = 'b' then .ok '\x08'
          else if e = 'f' then .ok '\x0c'
          else if e = 'n' then .ok '\n'
          else if e = 'r' then .ok '\r'
          else if e = 't' then .ok '\t'
          else .error ()
        match esc with
        | .error _ => .error ()
        | .ok ch =>
          match parseStringBody fuel rest2 with
          | .error _ => .error ()
          | .ok (s, r) => .ok (ch :: s, r)
    else
      match parseStringBody fuel rest with
      | .error _ => .error ()
      | .ok (s, r) => .ok (c :: s, r)

def digitsToNat : Nat → List Char → Nat × List Char
  | acc, [] => (acc, [])
  | acc, c :: rest =>
    if isJsonDigit c then digitsToNat (acc * 10 + (c.toNat - '0'.toNat)) rest
    else (acc, c :: rest)

def parseNumber : List Char → Except Unit (Int × List Char)
  | [] => .error ()
  | c :: rest =>
    if c = '-' then
      match rest with
      | [] => .error ()
      | d :: _ =>
        if isJsonDigit d then
          let p := digitsToNat 0 rest
          .ok (-(p.1 : Int), p.2)
        else .error ()
    else if isJsonDigit c then
      let p := digitsToNat 0 (c :: rest)
      .ok ((p.1 : Int), p.2)
    else .error ()

def stripPrefixChars : List Char → List Char → Option (List Char)
  | [], l => some l
  | _ :: _, [] => none
  | p :: ps, c :: cs => if c = p then stripPrefixChars ps cs else none

mutual

def parseValue : Nat → List Char → Except Unit (Jval × List Char)
  | 0, _ => .error ()
  | fuel + 1, l =>
    match skipJsonWs l with
    | [] => .error ()
    | c :: rest =>
      if c = '"' then
        match parseStringBody fuel rest with
        | .error _ => .error ()
        | .ok (s, r) => .ok (.jstr ⟨s⟩, r)
      else if c = '{' then parseObjBody fuel rest
      else if c = '[' then parseArrBody fuel rest
      else if c = 't' then
        match stripPrefixChars ['r', 'u', 'e'] rest with
        | none => .error ()
        | some r => .ok (.jbool true, r)
      else if c = 'f' then
        match stripPrefixChars ['a', 'l', 's', 'e'] rest with
        | none => .error ()
        | some r => .ok (.jbool false, r)
      else if c = 'n' then
        match stripPrefixChars ['u', 'l', 'l'] rest with
        | none => .error ()
        | some r => .ok (.jnull, r)
      else
        match parseNumber (c :: rest) with
        | .error _ => .error ()
        | .ok (n, r) => .ok (.jnum n, r)

/-- Right after `\x7b`: an empty object or a member list. -/
def parseObjBody : Nat → List Char → Except Unit (Jval × List Char)
  | 0, _ => .error ()
  | fuel + 1, l =>
    match skipJsonWs l with
    | '}' :: r => .ok (.jobj [], r)
    | other =>
      match parseMembers fuel other with
      | .error _ => .error ()
      | .ok (pairs, r) =>
        .ok (.jobj (pairs.foldl (fun m kv => dictSet m kv.1 kv.2) []), r)

/-- A nonempty `"key": value` list followed by `\x7d`. -/
def parseMembers : Nat → List Char → Except Unit (List (String × Jval) × List Char)
  | 0, _ => .error ()
  | fuel + 1, l =>
    match skipJsonWs l with
    | '"' :: rest =>
      match parseStringBody fuel rest with
      | .error _ => .error ()
      | .ok (key, r1) =>
        match skipJsonWs r1 with
        | ':' :: r2 =>
          match parseValue fuel r2 with
          | .error _ => .error ()
          | .ok (v, r3) =>
            match skipJsonWs r3 with
            | ',' :: r4 =>
              match parseMembers fuel r4 with
              | .error _ => .error ()
              | .ok (pairs, r5) => .ok ((⟨key⟩, v) :: pairs, r5)
            | '}' :: r4 => .ok ([(⟨key⟩, v)], r4)
            | _ => .error ()
        | _ => .error ()
    | _ => .error ()

/-- Right after `[`: an empty array or an element list. -/
def parseArrBody : Nat → List Char → Except Unit (Jval × List Char)
  | 0, _ => .error ()
  | fuel + 1, l =>
    match skipJsonWs l with
    | ']' :: r => .ok (.jarr [], r)
    | other =>
      match parseElems fuel other with
      | .error _ => .error ()
      | .ok (elems, r) => .ok (.jarr elems, r)

/-- A nonempty element list followed by `]`. -/
def parseElems : Nat → List Char → Except Unit (List Jval × List Char)
  | 0, _ => .error ()
  | fuel + 1, l =>
    match parseValue fuel l with
    | .error _ => .error ()
    | .ok (v, r1) =>
      match skipJsonWs r1 with
      | ',' :: r2 =>
        match parseElems fuel r2 with
        | .error _ => .error ()
        | .ok (elems, r3) => .ok (v :: elems, r3)
      | ']' :: r2 => .ok ([v], r2)
      | _ => .error ()

end

/-- Python `json.loads` on the whole document, as a character list. -/
def json_loads_list (l : List Char) : Except Unit Jval :=
  match parseValue (l.length * 2 + 2) l with
  | .error _ => .error ()
  | .ok (v, rest) => if skipJsonWs rest = [] then .ok v else .error ()

/-- Python `json.loads`. -/
def json_loads (s : String) : Except Unit Jval := json_loads_list s.data

/-- `load_settings` (backend_functions.py:125-130): `\x7b\x7d` when the file
does not exist, otherwise `json.load` of its contents, read in text mode
(universal newlines). -/
def load_settings (file : Option String) : Except Unit Jval :=
  match file with
  | none => .ok (.jobj [])
  | some content => json_loads ⟨universalNewlines content.data⟩

/-- JSON dump of a string with the common escapes. -/
def escapeJsonChar (c : Char) : List Char :=
  if c = '"' then ['\\', '"']
  else if c = '\\' then ['\\', '\\']
  else if c = '\n' then ['\\', 'n']
  else if c = '\t' then ['\\', 't']
  else if c = '\r' then ['\\', 'r']
  else [c]

def dumpString (s : String) : String :=
  ⟨'"' :: s.data.foldr (fun c acc => escapeJsonChar c ++ acc) ['"']⟩

/-- `json.dump(settings, f, indent=4)` for a dict of strings. -/
def dumpSettings : List (String × String) → String
  | [] => "\x7b\x7d"
  | members =>
    "\x7b\n" ++
      String.intercalate ",\n"
        (members.map (fun kv => "    " ++ dumpString kv.1 ++ ": " ++ dumpString kv.2)) ++
      "\n\x7d"

/-- Extracts a dict of strings from a parsed JSON object. -/
def jvalAsStringPairs : List (String × Jval) → Option (List (String × String))
  | [] => some []
  | (k, .jstr s) :: rest => (jvalAsStringPairs rest).map (fun r => (k, s) :: r)
  | _ => none

/-- `save_setting` (backend_functions.py:118-123): loads the settings dict
from `SETTINGS_FILE`, updates one key, rewrites the file as JSON with
indent 4.  Values are modelled as JSON strings (the only shape this model
dumps).  `.error` when `load_settings` raises or the loaded value is not a
dict of strings. -/
def save_setting (key value : String) (file : Option String) :
    Except Unit (Option String) :=
  match load_settings file with
  | .error _ => .error ()
  | .ok (.jobj members) =>
    match jvalAsStringPairs members with
    | none => .error ()
    | some settings => .ok (some (dumpSettings (dictSet settings key value)))
  | .ok _ => .error ()

/-! ## Process runner (`InstallWorker.run`, backend_functions.py:44-58) -/

inductive WorkerEvent
  | output (line : String)
  | finished (code : Int) (envName : String)
deriving DecidableEq

/-- The read/emit loop of `InstallWorker.run`: each line returned by
`readline()` is emitted (stripped) before the next line is read. -/
def workerLoop : List String → List WorkerEvent
  | [] => []
  | line :: rest => .output (pyStrip line) :: workerLoop rest

/-- The full event trace of `InstallWorker.run` for a successfully spawned
process whose stdout yields `stdoutLines` and whose `wait()` returns
`returnCode`: the loop's output events, then the single finished signal
carrying the return code and the `env_name` stored at construction. -/
def runEvents (stdoutLines : List String) (returnCode : Int) (envName : String) :
    List WorkerEvent :=
  workerLoop stdoutLines ++ [.finished returnCode envName]

/-- Outcome of `InstallWorker.run` as a whole: `subprocess.Popen` is its
first statement, so a spawn failure (`FileNotFoundError`) propagates out of
`run` before any signal is emitted. -/
inductive RunOutcome
  | raised
  | completed (events : List WorkerEvent)
deriving DecidableEq

/-- `InstallWorker.run` given the spawn result: `none` when the executable
cannot be spawned (the exception escapes `run`), `some (lines, code)` when
the process runs, produces `lines`, and exits with `code`. -/
def runWorker (spawned : Option (List String × Int)) (envName : String) : RunOutcome :=
  match spawned with
  | none => .raised
  | some (lines, code) => .completed (runEvents lines code envName)

/-- The events actually delivered to listeners for an outcome. -/
def emittedEvents : RunOutcome → List WorkerEvent
  | .raised => []
  | .completed evs => evs

def isFinished : WorkerEvent → Bool
  | .output _ => false
  | .finished _ _ => true

/-! ## Unique-name resolution (`create_virtual_env` / `create_conda_env`) -/

/-- `base_name = env_name or "myenv"` (backend_functions.py:81, 134). -/
def baseNameOf (env_name : String) : String :=
  if env_name = "" then "myenv" else env_name

/-- The candidate sequence `base, base_1, base_2, ...` produced by
`final_name = f"\x7bbase_name\x7d_\x7bnum\x7d" if num > 0 else base_name`. -/
def candidate (base : String) : Nat → String
  | 0 => base
  | Nat.succ n => base ++ "_" ++ toString (n + 1)

/-- The `while` collision loop of backend_functions.py:83-86 and 136-142,
with explicit fuel (the Python loop has none and may diverge). -/
def findUnique (base : String) (ex : String → Bool) : Nat → Nat → Option String
  | 0, _ => none
  | fuel + 1, num =>
    if ex (candidate base num) then findUnique base ex fuel (num + 1)
    else some (candidate base num)

/-- The shared unique-name resolution of `create_virtual_env` and
`create_conda_env`, abstracted over the existence predicate. -/
def resolveUniqueName (env_name : String) (ex : String → Bool) (fuel : Nat) : Option String :=
  findUnique (baseNameOf env_name) ex fuel 0

/-! ## Version resolver (`get_full_version`, backend_functions.py:164-190) -/

/-- Python string comparison: lexicographic on code points, a proper
prefix ranking below its extensions. -/
def charListLt : List Char → List Char → Bool
  | [], [] => false
  | [], _ :: _ => true
  | _ :: _, [] => false
  | a :: as, b :: bs =>
    if a.toNat < b.toNat then true
    else if b.toNat < a.toNat then false
    else charListLt as bs

def strLt (a b : String) : Bool := charListLt a.data b.data

/-- Insert into a descending (lexicographically) sorted list of strings. -/
def insertDesc (x : String) : List String → List String
  | [] => [x]
  | y :: ys => if strLt y x then x :: y :: ys else y :: insertDesc x ys

/-- Python `versions.sort(reverse=True)`: descending lexicographic sort. -/
def sortDesc : List String → List String
  | [] => []
  | x :: xs => insertDesc x (sortDesc xs)

def beforeDot (l : List Char) : List Char := l.takeWhile (fun c => c != '.')

def afterDot (l : List Char) : Option (List Char) :=
  match l.dropWhile (fun c => c != '.') with
  | [] => none
  | _ :: rest => some rest

/-- `".".join(full_version.split(".")[:2])` (backend_functions.py:179). -/
def major_minor (v : String) : String :=
  match afterDot v.data with
  | none => v
  | some rest => ⟨beforeDot v.data ++ '.' :: beforeDot rest⟩

/-- `get_full_version` (backend_functions.py:164-190), parameterised by the
result of the network fetch: `.error` when `requests` raised, `.ok versions`
for the list extracted by the `href` regular expression.  The list is sorted
descending, folded into `version_map` (later assignments overwrite earlier
ones), and looked up with the display version as default. -/
def get_full_version (fetched : Except Unit (List String)) (version_display : String) :
    String :=
  match fetched with
  | .error _ => version_display
  | .ok versions =>
    let sorted := sortDesc versions
    let vmap := sorted.foldl (fun m fv => dictSet m (major_minor fv) fv) []
    (dictGet? vmap version_display).getD version_display

/-! ## Activation launcher (`launch_activated_cmd`, backend_functions.py:245-279) -/

inductive LaunchResult
  | errorNoSpawn
  | spawn (cmd : List String)
deriving DecidableEq

/-- The spawn decision and command construction of `launch_activated_cmd`:
an empty name logs an error and returns without spawning; otherwise a
command line is built (an unknown type yields an error-echo command) and a
process is spawned. -/
def launch_activated_cmd (env_type env_name : String) (isWindows : Bool) : LaunchResult :=
  if env_name = "" then .errorNoSpawn
  else
    let sep := if isWindows then "\\" else "/"
    let command_to_run :=
      if env_type = "venv" then
        "call " ++ (env_name ++ sep ++ "Scripts" ++ sep ++ "activate.bat") ++
          " && where python && python --version"
      else if env_type = "conda" then
        "conda activate " ++ env_name ++ " && conda info --envs"
      else
        "echo Error: Unknown environment type && pause"
    .spawn (if isWindows then ["cmd.exe", "/K", command_to_run]
            else ["/bin/bash", "-c", command_to_run])

/-! ## Helper lemmas -/

theorem getElem?_some_lt {α : Type} (l : List α) (i : Nat) (a : α)
    (h : l[i]? = some a) : i < l.length := by
  induction l generalizing i with
  | nil => simp at h
  | cons x xs ih =>
    cases i with
    | zero => simp
    | succ n =>
      simp only [List.getElem?_cons_succ] at h
      exact Nat.succ_lt_succ (ih n h)

theorem append_getElem?_left {α : Type} (l₁ l₂ : List α) (i : Nat)
    (h : i < l₁.length) : (l₁ ++ l₂)[i]? = l₁[i]? := by
  induction l₁ generalizing i with
  | nil => simp at h
  | cons a as ih =>
    cases i with
    | zero => simp
    | succ n =>
      simp only [List.cons_append, List.getElem?_cons_succ]
      exact ih n (Nat.lt_of_succ_lt_succ h)

theorem append_getElem?_right_len {α : Type} (l₁ l₂ : List α) :
    (l₁ ++ l₂)[l₁.length]? = l₂[0]? := by
  induction l₁ with
  | nil => simp
  | cons a as ih => simpa using ih

theorem workerLoop_getElem? (lines : List String) (i : Nat) :
    (workerLoop lines)[i]? = (lines[i]?).map (fun l => WorkerEvent.output (pyStrip l)) := by
  induction lines generalizing i with
  | nil => simp [workerLoop]
  | cons a as ih =>
    cases i with
    | zero => simp [workerLoop]
    | succ n => simpa [workerLoop] using ih n

theorem workerLoop_length (lines : List String) :
    (workerLoop lines).length = lines.length := by
  induction lines with
  | nil => rfl
  | cons a as ih => simpa [workerLoop] using ih

theorem workerLoop_filter_finished (lines : List String) :
    (workerLoop lines).filter isFinished = [] := by
  induction lines with
  | nil => rfl
  | cons a as ih => simpa [workerLoop, isFinished] using ih

theorem save_selected_env_data (kind name : String) :
    (save_selected_env kind name).data = kind.data ++ '\n' :: name.data := by
  simp [save_selected_env, String.data_append]

theorem save_selected_env_ne_empty (kind name : String) :
    save_selected_env kind name ≠ "" := by
  intro h
  have hd := congrArg String.data h
  rw [save_selected_env_data] at hd
  simp at hd

/-! ## Claims -/

/-- Claim C1: the spec says `get_full_version` returns the numerically
greatest patch for the requested major.minor, in particular "3.11.9" on
the index 3.11.0 / 3.11.9 / 3.11.2 / 3.10.8.  The code sorts the strings
lexicographically descending and then lets every later dict assignment
overwrite the earlier one, so the entry kept for "3.11" is the
lexicographically smallest: it returns "3.11.0", contradicting its own
docstring ("Fetches the latest patch version"). -/
theorem get_full_version_spec_index :
    get_full_version (.ok ["3.11.0", "3.11.9", "3.11.2", "3.10.8"]) "3.11" = "3.11.0"
    ∧ ("3.11.0" : String) ≠ "3.11.9" :=
  ⟨rfl, by decide⟩

/-- Claim C2: for a successfully spawned job, `InstallWorker.run` emits the
i-th line the child produced as the i-th event of the trace (stripped), so
listeners observe the lines in exactly the child's order with no
reordering or batching; the trace has exactly one further event, the
terminal `finished_signal`, located strictly after every output line and
carrying the process's exit code and the label stored at construction. -/
theorem installWorker_output_order_and_single_completion
    (lines : List String) (code : Int) (envName : String) :
    (∀ (i : Nat) (line : String), lines[i]? = some line →
        (runEvents lines code envName)[i]? = some (WorkerEvent.output (pyStrip line)))
    ∧ (runEvents lines code envName)[lines.length]? = some (WorkerEvent.finished code envName)
    ∧ (runEvents lines code envName).length = lines.length + 1
    ∧ (runEvents lines code envName).filter isFinished = [WorkerEvent.finished code envName] := by
  refine ⟨?_, ?_, ?_, ?_⟩
  · intro i line h
    have hi : i < lines.length := getElem?_some_lt lines i line h
    have hi' : i < (workerLoop lines).length := by rw [workerLoop_length]; exact hi
    rw [runEvents, append_getElem?_left _ _ i hi', workerLoop_getElem?, h]
    rfl
  · have hl := append_getElem?_right_len (workerLoop lines)
      [WorkerEvent.finished code envName]
    rw [workerLoop_length] at hl
    rw [runEvents, hl]
    rfl
  · simp [runEvents, workerLoop_length]
  · simp [runEvents, List.filter_append, workerLoop_filter_finished, isFinished]

/-- Witness for C2 at a concrete job: two output lines, exit code 0. -/
theorem installWorker_output_order_witness :
    (runEvents ["a\n", " b \n"] 0 "envA")[0]? = some (WorkerEvent.output "a")
    ∧ (runEvents ["a\n", " b \n"] 0 "envA")[2]? = some (WorkerEvent.finished 0 "envA") :=
  ⟨(installWorker_output_order_and_single_completion ["a\n", " b \n"] 0 "envA").1 0 "a\n" rfl,
   (installWorker_output_order_and_single_completion ["a\n", " b \n"] 0 "envA").2.1⟩

/-- Claim C5 counterexample: an existing but malformed (empty) record does
not yield the none pair — `load_selected_env` returns two empty strings. -/
theorem load_selected_env_empty_record_counterexample :
    load_selected_env (some "") = (some "", some "")
    ∧ load_selected_env (some "") ≠ (none, none) :=
  ⟨rfl, by decide⟩

/-- Claim C5 (amended): `load_selected_env` never raises to its caller: a
missing file yields `(none, none)`; any existing contents, malformed or
not, yield the two stripped leading lines as `some` values (possibly
`(some "", some "")`), never a failure — but not the none pair. -/
theorem load_selected_env_total :
    load_selected_env none = (none, none)
    ∧ ∀ s : String, ∃ a b : String, load_selected_env (some s) = (some a, some b) :=
  ⟨rfl, fun _ => ⟨_, _, rfl⟩⟩

/-- Claim C6 counterexample: an unrecognized environment kind is not
rejected before spawning — `launch_activated_cmd` spawns a terminal
running an error-echo command. -/
theorem launch_unknown_kind_spawns :
    launch_activated_cmd "bogus" "x" true =
      .spawn ["cmd.exe", "/K", "echo Error: Unknown environment type && pause"]
    ∧ launch_activated_cmd "bogus" "x" true ≠ .errorNoSpawn :=
  ⟨rfl, by decide⟩

/-- Claim C6 (amended): an empty environment name is rejected before any
spawn (an error is logged and the function returns, raising nothing); an
unrecognized environment kind with a nonempty name is NOT rejected: a
shell process is spawned running an error-echo command. -/
theorem launch_validation (t n : String) (w : Bool)
    (hn : n ≠ "") (ht1 : t ≠ "venv") (ht2 : t ≠ "conda") :
    launch_activated_cmd t "" w = .errorNoSpawn
    ∧ launch_activated_cmd t n w =
        .spawn (if w then ["cmd.exe", "/K", "echo Error: Unknown environment type && pause"]
                else ["/bin/bash", "-c", "echo Error: Unknown environment type && pause"]) := by
  constructor
  · simp [launch_activated_cmd]
  · simp [launch_activated_cmd, hn, ht1, ht2]

/-- Witness for C6 (amended) at a concrete kind and name. -/
theorem launch_validation_witness :
    launch_activated_cmd "bogus2" "" false = .errorNoSpawn
    ∧ launch_activated_cmd "bogus2" "y" false =
        .spawn ["/bin/bash", "-c", "echo Error: Unknown environment type && pause"] :=
  ⟨(launch_validation "bogus2" "y" false (by decide) (by decide) (by decide)).1,
   (launch_validation "bogus2" "y" false (by decide) (by decide) (by decide)).2⟩

/-- Claim C7 counterexample: a spawn failure is not surfaced as a reported
outcome — `subprocess.Popen` is the first statement of `run`, the
exception escapes the worker, and no signal at all is delivered. -/
theorem runWorker_spawn_failure_silent :
    runWorker none "job" = .raised
    ∧ emittedEvents (runWorker none "job") = [] :=
  ⟨rfl, rfl⟩

/-- Claim C7 (amended): a job whose executable cannot be spawned raises
out of `run`, delivering no output and no terminal event — distinguishable
from a job that ran and exited non-zero, which completes with exactly one
terminal event carrying the exit code and the start-time label — but the
spawn failure is an unhandled exception in the worker thread, not a
reported outcome on the signal channel. -/
theorem runWorker_spawn_failure_vs_exit (envName : String) :
    runWorker none envName = .raised
    ∧ emittedEvents (runWorker none envName) = []
    ∧ ∀ (lines : List String) (code : Int),
        runWorker (some (lines, code)) envName ≠ .raised
        ∧ (emittedEvents (runWorker (some (lines, code)) envName)).filter isFinished
            = [WorkerEvent.finished code envName]
        ∧ (emittedEvents (runWorker (some (lines, code)) envName)).getLast?
            = some (WorkerEvent.finished code envName) := by
  refine ⟨rfl, rfl, fun lines code => ⟨?_, ?_, ?_⟩⟩
  · simp [runWorker]
  · show (runEvents lines code envName).filter isFinished = _
    simp [runEvents, List.filter_append, workerLoop_filter_finished, isFinished]
  · show (runEvents lines code envName).getLast? = _
    simp [runEvents]

/-- Claim C10 counterexample: the truncated intermediate state of the
in-place write is neither the prior record nor the final record, so a
reader racing the write can observe a partially written (empty) file. -/
theorem save_selected_env_not_atomic :
    ¬ ∀ s ∈ save_selected_env_states (some "venv\nmyenv") "conda" "other",
        s = some "venv\nmyenv" ∨ s = some (save_selected_env "conda" "other") := by
  decide

/-- Claim C10 (amended): `save_selected_env` overwrites `SETTINGS_FILE` in
place: `open(..., "w")` truncates the file before the new record is
written, so the observable states during a save are the prior record, an
empty file, and the final record; when the prior record is nonempty the
truncated state differs from both, and a racing reader can observe it. -/
theorem save_selected_env_truncates (prior kind name : String) (hp : prior ≠ "") :
    save_selected_env_states (some prior) kind name
      = [some prior, some "", some (save_selected_env kind name)]
    ∧ some "" ∈ save_selected_env_states (some prior) kind name
    ∧ (some "" : Option String) ≠ some prior
    ∧ (some "" : Option String) ≠ some (save_selected_env kind name) := by
  refine ⟨rfl, by simp [save_selected_env_states], ?_, ?_⟩
  · intro h
    exact hp ((Option.some.inj h).symm)
  · intro h
    exact save_selected_env_ne_empty kind name ((Option.some.inj h).symm)

/-- Witness for C10 (amended) at a concrete prior record. -/
theorem save_selected_env_truncates_witness :
    some "" ∈ save_selected_env_states (some "old") "venv" "e"
    ∧ (some "" : Option String) ≠ some "old" :=
  ⟨(save_selected_env_truncates "old" "venv" "e" (by decide)).2.1,
   (save_selected_env_truncates "old" "venv" "e" (by decide)).2.2.1⟩

theorem findUnique_first_free (base : String) (ex : String → Bool) :
    ∀ (fuel i num : Nat), i < fuel →
      ex (candidate base (num + i)) = false →
      (∀ j, j < i → ex (candidate base (num + j)) = true) →
      findUnique base ex fuel num = some (candidate base (num + i)) := by
  intro fuel
  induction fuel with
  | zero => intro i num h; exact absurd h (by omega)
  | succ f ih =>
    intro i num hi hfree hbusy
    cases i with
    | zero =>
      simp only [Nat.add_zero] at hfree ⊢
      simp [findUnique, hfree]
    | succ i' =>
      have hb0 : ex (candidate base num) = true := by
        have := hbusy 0 (Nat.succ_pos i')
        simpa using this
      have step : findUnique base ex (f + 1) num = findUnique base ex f (num + 1) := by
        simp [findUnique, hb0]
      rw [step]
      have harith : num + 1 + i' = num + (i' + 1) := by omega
      have hfree' : ex (candidate base (num + 1 + i')) = false := by
        rw [harith]; exact hfree
      have hbusy' : ∀ j, j < i' → ex (candidate base (num + 1 + j)) = true := by
        intro j hj
        have harith2 : num + 1 + j = num + (j + 1) := by omega
        rw [harith2]
        exact hbusy (j + 1) (by omega)
      have := ih i' (num + 1) (by omega) hfree' hbusy'
      rw [this, harith]

/-- Claim C8: the unique-name loop shared by `create_virtual_env` and
`create_conda_env` substitutes the default base "myenv" for an empty
requested name, and returns the first candidate of the sequence
`base, base_1, base_2, ...` for which the existence predicate is false,
having found every smaller-numbered candidate to exist. -/
theorem resolveUniqueName_first_free (b : String) (ex : String → Bool)
    (fuel i : Nat) (hfuel : i < fuel)
    (hfree : ex (candidate (baseNameOf b) i) = false)
    (hbusy : ∀ j, j < i → ex (candidate (baseNameOf b) j) = true) :
    resolveUniqueName b ex fuel = some (candidate (baseNameOf b) i)
    ∧ baseNameOf "" = "myenv"
    ∧ (b ≠ "" → baseNameOf b = b) := by
  refine ⟨?_, rfl, fun hb => by simp [baseNameOf, hb]⟩
  have := findUnique_first_free (baseNameOf b) ex fuel i 0 hfuel
    (by simpa using hfree) (by intro j hj; simpa using hbusy j hj)
  simpa [resolveUniqueName] using this

/-- Witness for C8: base "" defaults to "myenv"; "myenv" is taken, so the
loop lands on "myenv_1". -/
theorem resolveUniqueName_first_free_witness :
    resolveUniqueName "" (fun s => s == "myenv") 3 = some "myenv_1" := by
  have h := resolveUniqueName_first_free "" (fun s => s == "myenv") 3 1
    (by decide) (by decide)
    (by
      intro j hj
      have hj0 : j = 0 := by omega
      subst hj0
      decide)
  exact h.1

theorem mem_insertDesc (x y : String) (l : List String)
    (h : x ∈ insertDesc y l) : x = y ∨ x ∈ l := by
  induction l with
  | nil => simpa [insertDesc] using h
  | cons a as ih =>
    by_cases hlt : strLt a y = true
    · simp [insertDesc, hlt] at h
      rcases h with h | h | h
      · exact Or.inl h
      · exact Or.inr (by simp [h])
      · exact Or.inr (by simp [h])
    · simp [insertDesc, hlt] at h
      rcases h with h | h
      · exact Or.inr (by simp [h])
      · rcases ih h with h' | h'
        · exact Or.inl h'
        · exact Or.inr (by simp [h'])

theorem mem_sortDesc (x : String) (l : List String)
    (h : x ∈ sortDesc l) : x ∈ l := by
  induction l with
  | nil => simp [sortDesc] at h
  | cons a as ih =>
    rcases mem_insertDesc x a (sortDesc as) h with h' | h'
    · simp [h']
    · simp [ih h']

theorem dictGet?_dictSet_ne {α : Type} (m : List (String × α)) (k' k : String)
    (v : α) (h : k' ≠ k) : dictGet? (dictSet m k' v) k = dictGet? m k := by
  induction m with
  | nil => simp [dictSet, dictGet?, h]
  | cons kv rest ih =>
    by_cases he : kv.1 = k'
    · simp [dictSet, he, dictGet?, h]
    · simp only [dictSet, he, if_false]
      by_cases hk : kv.1 = k
      · simp [dictGet?, hk]
      · simp [dictGet?, hk, ih]

theorem dictGet?_foldl_none (d : String) (l : List String)
    (hl : ∀ v ∈ l, major_minor v ≠ d) :
    ∀ m : List (String × String), dictGet? m d = none →
      dictGet? (l.foldl (fun m fv => dictSet m (major_minor fv) fv) m) d = none := by
  induction l with
  | nil => intro m hm; simpa using hm
  | cons a as ih =>
    intro m hm
    simp only [List.foldl_cons]
    refine ih (fun v hv => hl v (by simp [hv])) _ ?_
    rw [dictGet?_dictSet_ne m (major_minor a) d a (hl a (by simp))]
    exact hm

/-- Claim C9: `get_full_version` returns the requested display version
unchanged when the network fetch raised, and also when the fetched index
contains no version whose major.minor equals the request. -/
theorem get_full_version_absent_or_error (d : String) :
    get_full_version (.error ()) d = d
    ∧ ∀ versions : List String, (∀ v ∈ versions, major_minor v ≠ d) →
        get_full_version (.ok versions) d = d := by
  refine ⟨rfl, fun versions hv => ?_⟩
  have hnone : dictGet?
      ((sortDesc versions).foldl (fun m fv => dictSet m (major_minor fv) fv) []) d
      = none := by
    refine dictGet?_foldl_none d (sortDesc versions) ?_ [] rfl
    intro v hvmem
    exact hv v (mem_sortDesc v versions hvmem)
  simp [get_full_version, hnone]

/-- Witness for C9: "9.9" is absent from a concrete index and is returned
unchanged. -/
theorem get_full_version_absent_witness :
    get_full_version (.ok ["3.11.0", "3.10.8"]) "9.9" = "9.9" :=
  (get_full_version_absent_or_error "9.9").2 ["3.11.0", "3.10.8"] (by decide)

theorem takeWhile_of_all {α : Type} (p : α → Bool) (l : List α)
    (h : ∀ c ∈ l, p c = true) : l.takeWhile p = l := by
  induction l with
  | nil => rfl
  | cons a as ih =>
    have ha : p a = true := h a (by simp)
    simp [List.takeWhile_cons, ha, ih fun c hc => h c (by simp [hc])]

theorem dropWhile_of_all {α : Type} (p : α → Bool) (l : List α)
    (h : ∀ c ∈ l, p c = true) : l.dropWhile p = [] := by
  induction l with
  | nil => rfl
  | cons a as ih =>
    have ha : p a = true := h a (by simp)
    simp [List.dropWhile_cons, ha, ih fun c hc => h c (by simp [hc])]

theorem takeWhile_append_stop {α : Type} (p : α → Bool) (a b : List α) (c : α)
    (h : ∀ x ∈ a, p x = true) (hc : p c = false) :
    (a ++ c :: b).takeWhile p = a := by
  induction a with
  | nil => simp [List.takeWhile_cons, hc]
  | cons x xs ih =>
    have hx : p x = true := h x (by simp)
    simp [List.takeWhile_cons, hx, ih fun y hy => h y (by simp [hy])]

theorem dropWhile_append_stop {α : Type} (p : α → Bool) (a b : List α) (c : α)
    (h : ∀ x ∈ a, p x = true) (hc : p c = false) :
    (a ++ c :: b).dropWhile p = c :: b := by
  induction a with
  | nil => simp [List.dropWhile_cons, hc]
  | cons x xs ih =>
    have hx : p x = true := h x (by simp)
    simp [List.dropWhile_cons, hx, ih fun y hy => h y (by simp [hy])]

theorem universalNewlines_no_cr (l : List Char) (h : '\r' ∉ l) :
    universalNewlines l = l := by
  induction l with
  | nil => rfl
  | cons c rest ih =>
    have hc : c ≠ '\r' := fun hceq => h (by simp [hceq])
    cases rest with
    | nil => simp [universalNewlines, hc]
    | cons d rest2 =>
      have h' : '\r' ∉ d :: rest2 := fun hm => h (List.mem_cons_of_mem c hm)
      simp [universalNewlines, hc, ih h']

theorem universalNewlines_cons_of_ne (c : Char) (rest : List Char) (hc : c ≠ '\r') :
    ∃ t, universalNewlines (c :: rest) = c :: t := by
  cases rest with
  | nil => exact ⟨[], by simp [universalNewlines, hc]⟩
  | cons d rest2 =>
    exact ⟨universalNewlines (d :: rest2), by simp [universalNewlines, hc]⟩

theorem load_selected_env_some (content : String) :
    load_selected_env (some content)
      = (some ⟨pyStripList (readlineList (universalNewlines content.data)).1⟩,
         some ⟨pyStripList
           (readlineList (readlineList (universalNewlines content.data)).2).1⟩) := rfl

theorem readlineList_newline (a b : List Char)
    (h : ∀ c ∈ a, (c != '\n') = true) :
    readlineList (a ++ '\n' :: b) = (a ++ ['\n'], b) := by
  have hd := dropWhile_append_stop (fun c => c != '\n') a b '\n' h (by decide)
  have ht := takeWhile_append_stop (fun c => c != '\n') a b '\n' h (by decide)
  simp [readlineList, hd, ht]

theorem readlineList_no_newline (a : List Char)
    (h : ∀ c ∈ a, (c != '\n') = true) :
    readlineList a = (a, []) := by
  have hd := dropWhile_of_all (fun c => c != '\n') a h
  have ht := takeWhile_of_all (fun c => c != '\n') a h
  simp [readlineList, hd, ht]

theorem stripLeft_cons_ws (c : Char) (l : List Char) (h : isPyWs c = true) :
    stripLeft (c :: l) = stripLeft l := by
  simp [stripLeft, List.dropWhile_cons, h]

theorem stripRight_append_newline (a : List Char) :
    stripRight (a ++ ['\n']) = stripRight a := by
  unfold stripRight
  rw [List.reverse_append]
  simp only [List.reverse_cons, List.reverse_nil, List.nil_append, List.singleton_append]
  rw [stripLeft_cons_ws '\n' a.reverse (by decide)]

theorem pyStripList_append_newline (a : List Char) :
    pyStripList (a ++ ['\n']) = pyStripList a := by
  unfold pyStripList
  rw [stripRight_append_newline]

theorem pyStripList_of_pyStrip_eq (s : String) (h : pyStrip s = s) :
    pyStripList s.data = s.data :=
  congrArg String.data h

/-- Claim C3 counterexample: a name containing a newline does not survive
the two-line on-disk format — the round trip truncates it at the first
newline. -/
theorem selection_roundtrip_newline_counterexample :
    load_selected_env (some (save_selected_env "venv" "a\nb")) = (some "venv", some "a")
    ∧ (some "a" : Option String) ≠ some "a\nb" :=
  ⟨rfl, by decide⟩

/-- Claim C3 (amended): for every kind and non-empty name that contain no
newline character (neither LF nor CR — text-mode reading treats both as
line terminators) and carry no leading or trailing Python whitespace,
`save_selected_env` followed by `load_selected_env` yields exactly the
saved pair. -/
theorem selection_roundtrip (kind name : String)
    (hkn : '\n' ∉ kind.data) (hkr : '\r' ∉ kind.data) (hks : pyStrip kind = kind)
    (hnn : '\n' ∉ name.data) (hnr : '\r' ∉ name.data) (hns : pyStrip name = name)
    (_hne : name ≠ "") :
    load_selected_env (some (save_selected_env kind name)) = (some kind, some name) := by
  have hk' : ∀ c ∈ kind.data, (c != '\n') = true := by
    intro c hc
    simp only [bne_iff_ne, ne_eq]
    intro hceq
    subst hceq
    exact hkn hc
  have hn' : ∀ c ∈ name.data, (c != '\n') = true := by
    intro c hc
    simp only [bne_iff_ne, ne_eq]
    intro hceq
    subst hceq
    exact hnn hc
  have hdata : (save_selected_env kind name).data = kind.data ++ '\n' :: name.data :=
    save_selected_env_data kind name
  have hnocr : '\r' ∉ kind.data ++ '\n' :: name.data := by
    intro hm
    rcases List.mem_append.1 hm with hm | hm
    · exact hkr hm
    · rcases List.mem_cons.1 hm with hm | hm
      · exact absurd hm (by decide)
      · exact hnr hm
  simp only [load_selected_env_some, hdata, universalNewlines_no_cr _ hnocr,
    readlineList_newline kind.data name.data hk',
    readlineList_no_newline name.data hn', pyStripList_append_newline,
    pyStripList_of_pyStrip_eq kind hks, pyStripList_of_pyStrip_eq name hns]

/-- Witness for C3 (amended) at a concrete newline-free pair. -/
theorem selection_roundtrip_witness :
    load_selected_env (some (save_selected_env "venv" "myenv"))
      = (some "venv", some "myenv") :=
  selection_roundtrip "venv" "myenv" (by decide) (by decide) (by decide) (by decide)
    (by decide) (by decide) (by decide)

theorem parseValue_bad_start (fuel : Nat) (c : Char) (r : List Char)
    (hws : jsonWs c = false)
    (hq : c ≠ '"') (hb : c ≠ '{') (hk : c ≠ '[')
    (ht : c ≠ 't') (hf : c ≠ 'f') (hn : c ≠ 'n')
    (hm : c ≠ '-') (hd : isJsonDigit c = false) :
    parseValue fuel (c :: r) = .error () := by
  cases fuel with
  | zero => rfl
  | succ f =>
    have hskip : skipJsonWs (c :: r) = c :: r := by
      simp [skipJsonWs, List.dropWhile_cons, hws]
    rw [parseValue, hskip]
    simp only [hq, hb, hk, ht, hf, hn, if_false]
    have hnum : parseNumber (c :: r) = .error () := by
      simp [parseNumber, hm, hd]
    rw [hnum]

/-- Claim C4 (amended): `save_setting`/`load_settings` and
`save_selected_env`/`load_selected_env` share the single SETTINGS_FILE.
For the kinds the application uses ("venv", "conda"), saving a selection
replaces the whole file with the two-line record — discarding every stored
setting — after which `load_settings` raises a JSON decode error; and
conversely, after `save_setting` the file is JSON text, from which
`load_selected_env` returns stripped fragments of the JSON instead of the
last saved selection. -/
theorem settings_and_selection_share_file (kind : String)
    (hk : kind = "venv" ∨ kind = "conda") :
    (∀ name : String, load_settings (some (save_selected_env kind name)) = .error ())
    ∧ save_setting "key" "value" none = .ok (some "\x7b\n    \"key\": \"value\"\n\x7d")
    ∧ load_selected_env (some "\x7b\n    \"key\": \"value\"\n\x7d")
        = (some "\x7b", some "\"key\": \"value\"")
    ∧ (some "\x7b" : Option String) ≠ some kind := by
  refine ⟨?_, rfl, rfl, ?_⟩
  · intro name
    rcases hk with hk | hk <;> subst hk
    · have hdata : (save_selected_env "venv" name).data
          = 'v' :: ('e' :: 'n' :: 'v' :: '\n' :: name.data) := by
        rw [save_selected_env_data]
        rfl
      obtain ⟨t, ht⟩ := universalNewlines_cons_of_ne 'v'
        ('e' :: 'n' :: 'v' :: '\n' :: name.data) (by decide)
      show json_loads_list (universalNewlines (save_selected_env "venv" name).data)
        = .error ()
      rw [hdata, ht]
      unfold json_loads_list
      rw [parseValue_bad_start _ 'v' _ (by decide) (by decide) (by decide)
        (by decide) (by decide) (by decide) (by decide) (by decide) (by decide)]
    · have hdata : (save_selected_env "conda" name).data
          = 'c' :: ('o' :: 'n' :: 'd' :: 'a' :: '\n' :: name.data) := by
        rw [save_selected_env_data]
        rfl
      obtain ⟨t, ht⟩ := universalNewlines_cons_of_ne 'c'
        ('o' :: 'n' :: 'd' :: 'a' :: '\n' :: name.data) (by decide)
      show json_loads_list (universalNewlines (save_selected_env "conda" name).data)
        = .error ()
      rw [hdata, ht]
      unfold json_loads_list
      rw [parseValue_bad_start _ 'c' _ (by decide) (by decide) (by decide)
        (by decide) (by decide) (by decide) (by decide) (by decide) (by decide)]
  · rcases hk with hk | hk <;> subst hk <;> decide

/-- Witness for C4 (amended) at kind "venv" and a concrete settings key. -/
theorem settings_and_selection_share_file_witness :
    load_settings (some (save_selected_env "venv" "myenv")) = .error ()
    ∧ save_setting "key" "value" none = .ok (some "\x7b\n    \"key\": \"value\"\n\x7d") :=
  ⟨(settings_and_selection_share_file "venv" (Or.inl rfl)).1 "myenv",
   (settings_and_selection_share_file "venv" (Or.inl rfl)).2.1⟩

/-- Claim C4 counterexample: the interference statement does not hold for
every (kind, name) pair — for kind "\x7b\x7d" and an empty name the
two-line record happens to be valid JSON, and `load_settings` returns the
empty object instead of raising. -/
theorem settings_selection_json_kind_counterexample :
    load_settings (some (save_selected_env "\x7b\x7d" "")) = .ok (.jobj []) := rfl

end KamiSetup
